import Mathlib

/-!
Shallow embedding of the push-notification hook of this repository
(`src/hooks/usePushNotifications.ts`) and proofs about it.

The TypeScript module has three pieces:
* `sendPushNotification` — builds a message envelope and POSTs it to the
  Expo push endpoint via `fetch`;
* `registerForPushNotificationsAsync` — the registration procedure:
  Android channel setup, physical-device check, permission query/request,
  project-id resolution, provider token fetch; failures go through
  `handleRegistrationError` (alert + throw);
* `usePushNotifications` — the hook: two `useEffect`s guarded by the
  module-level boolean `areListenersReady`; the first resolves the token
  (catching errors into the token string), the second attaches the
  notification listeners.

Asynchronous effects are embedded as explicit event traces; a rejected
promise is an explicit failure constructor; React state is explicit state
passing over a process state (guard, per-activation hook states, active
listeners).
-/

namespace PushApp

/-- Observable effects performed by the registration procedure:
`setNotificationChannelAsync`, `getPermissionsAsync`,
`requestPermissionsAsync`, the `alert` call of `handleRegistrationError`,
and the provider token-fetch network call `getExpoPushTokenAsync`. -/
inductive REvent where
  | setChannel
  | getPerms
  | requestPerms
  | alert (msg : String)
  | getToken (projectId : String)
deriving DecidableEq

/-- Outcome of an async computation that either returns a token string or
throws; for a thrown error we carry the message of the `Error` object. -/
inductive RegResult where
  | token (t : String)
  | failure (msg : String)
deriving DecidableEq

/-- The environment a registration run observes: platform, device kind,
the OS permission answers, the two configuration sources for the project
id (`Constants?.expoConfig?.extra?.eas?.projectId` and
`Constants?.easConfig?.projectId`), and the provider's answer to
`getExpoPushTokenAsync` (for a rejection, the template-stringified value
`${error}` that the catch block would produce). -/
structure Env where
  platformOS : String
  isDevice : Bool
  existingStatus : String
  requestStatus : String
  expoProjectId : Option String
  easProjectId : Option String
  tokenFetch : RegResult
deriving DecidableEq

/-- `handleRegistrationError(errorMessage)`: `alert(errorMessage)` then
`throw new Error(errorMessage)` — returns the emitted trace and the
thrown failure. -/
def handleRegistrationError (msg : String) : List REvent × RegResult :=
  ([REvent.alert msg], RegResult.failure msg)

/-- `Constants?.expoConfig?.extra?.eas?.projectId ?? Constants?.easConfig?.projectId`:
`??` falls through only when the first source is null/undefined. -/
def resolveProjectId (env : Env) : Option String :=
  match env.expoProjectId with
  | some p => some p
  | none => env.easProjectId

/-- `finalStatus` after the optional interactive request: starts as the
existing status and is replaced by the request's answer when the existing
status is not "granted". -/
def finalPermissionStatus (env : Env) : String :=
  if env.existingStatus ≠ "granted" then env.requestStatus else env.existingStatus

/-- `registerForPushNotificationsAsync()` as a function from the observed
environment to the trace of effects performed and the settled outcome of
the returned promise. The flow follows the source line by line: Android
channel setup, `Device.isDevice` check, permission query (and request when
not already granted), truthiness check of the resolved project id, then
the provider token fetch wrapped in try/catch. Every failure path goes
through `handleRegistrationError`, which throws, so the `return;` after
the permission failure is dead code and the procedure never resolves with
`undefined`. -/
def registerForPushNotificationsAsync (env : Env) : List REvent × RegResult :=
  let t0 := if env.platformOS = "android" then [REvent.setChannel] else []
  if env.isDevice then
    let t1 := t0 ++ [REvent.getPerms]
    let t2 := if env.existingStatus ≠ "granted" then t1 ++ [REvent.requestPerms] else t1
    if finalPermissionStatus env ≠ "granted" then
      let e := handleRegistrationError
        "Permission not granted to get push token for push notification!"
      (t2 ++ e.1, e.2)
    else
      match resolveProjectId env with
      | none =>
        let e := handleRegistrationError "Project ID not found"
        (t2 ++ e.1, e.2)
      | some pid =>
        if pid = "" then
          let e := handleRegistrationError "Project ID not found"
          (t2 ++ e.1, e.2)
        else
          match env.tokenFetch with
          | RegResult.token tok => (t2 ++ [REvent.getToken pid], RegResult.token tok)
          | RegResult.failure m =>
            let e := handleRegistrationError m
            (t2 ++ [REvent.getToken pid] ++ e.1, e.2)
  else
    let e := handleRegistrationError "Must use physical device for push notifications"
    (t0 ++ e.1, e.2)

/-- Argument record of `sendPushNotification`; `data` is optional. -/
structure SendPushOptions where
  «to» : List String
  title : String
  body : String
  data : Option (List (String × String))
deriving DecidableEq

/-- The message envelope built by `sendPushNotification`. -/
structure Message where
  «to» : List String
  sound : String
  title : String
  body : String
  data : Option (List (String × String))
deriving DecidableEq

/-- An HTTP request issued through `fetch`. -/
structure Request where
  url : String
  method : String
  headers : List (String × String)
  body : Message
deriving DecidableEq

/-- How the single `fetch` settles: an HTTP response with some status
(fetch resolves for every HTTP status), or a network-level failure
(fetch rejects). -/
inductive FetchOutcome where
  | response (status : Nat)
  | networkError (msg : String)
deriving DecidableEq

/-- Outcome of the promise returned by `sendPushNotification`. -/
inductive SendResult where
  | completed
  | rejected (msg : String)
deriving DecidableEq

/-- `sendPushNotification(options)`: builds the message envelope, issues
exactly one POST to the Expo push endpoint, and — having no try/catch —
completes when `fetch` resolves and rejects when `fetch` rejects. Returns
the list of issued requests together with the settled outcome. -/
def sendPushNotification (options : SendPushOptions) (fetchOutcome : FetchOutcome) :
    List Request × SendResult :=
  let message : Message :=
    { «to» := options.«to», sound := "default", title := options.title,
      body := options.body, data := options.data }
  let req : Request :=
    { url := "https://exp.host/--/api/v2/push/send", method := "POST",
      headers := [("Accept", "application/json"),
                  ("Accept-encoding", "gzip, deflate"),
                  ("Content-Type", "application/json")],
      body := message }
  ([req],
    match fetchOutcome with
    | FetchOutcome.response _ => SendResult.completed
    | FetchOutcome.networkError m => SendResult.rejected m)

/-!
The hook `usePushNotifications` and the process-wide listener guard.

One activation of the hook creates fresh React state
(`expoPushToken := ""`, `notifications := []`) and runs its two effects in
order. The payload type of a notification record is an opaque parameter
`α`: the hook never inspects it. A listener records which activation owns
it and the `notifications` state value its closure captured when it was
attached (the effect runs once, so that value is the one from the render
that created the closure). Delivering a notification fires every active
listener: each one calls `setNotifications([notification, ...captured])`
on its owner's state.
-/

variable {α : Type}

/-- The React state of one activation of `usePushNotifications`. -/
structure HookState (α : Type) where
  expoPushToken : String
  notifications : List α
deriving DecidableEq

/-- An active "notification received" listener: the index of the
activation that attached it and the `notifications` value captured by its
closure. -/
structure Listener (α : Type) where
  owner : Nat
  captured : List α
deriving DecidableEq

/-- Process-wide state: the module-level guard `areListenersReady`, the
states of all activations so far (in mount order), the active listeners,
and the accumulated trace of registration effects. -/
structure ProcState (α : Type) where
  areListenersReady : Bool
  hooks : List (HookState α)
  listeners : List (Listener α)
  events : List REvent
deriving DecidableEq

/-- State of a process before any activation. -/
def initialProcState (α : Type) : ProcState α :=
  { areListenersReady := false, hooks := [], listeners := [], events := [] }

/-- `${error}` for a thrown `Error` object whose message is `msg`. -/
def errString (msg : String) : String := "Error: " ++ msg

/-- The token value stored by the first effect:
`.then((token) => setExpoPushToken(token ?? ""))` on resolution,
`.catch((error) => setExpoPushToken(template string of error))` on
rejection. -/
def tokenOf (env : Env) : String :=
  match (registerForPushNotificationsAsync env).2 with
  | RegResult.token tok => tok
  | RegResult.failure m => errString m

/-- Events a process can observe: a new activation of the hook (a mount of
a consuming view), delivery of an incoming notification record, and
teardown of an activation (its cleanup removes the listeners it attached;
the guard is not reset). -/
inductive PEvent (α : Type) where
  | activate (env : Env)
  | deliver (n : α)
  | deactivate (i : Nat)

/-- Replace the `notifications` field of the hook state at index `i`
(a `setNotifications` call on that activation). -/
def setNotifs (ns : List α) : Nat → List (HookState α) → List (HookState α)
  | _, [] => []
  | 0, h :: hs => { h with notifications := ns } :: hs
  | Nat.succ j, h :: hs => h :: setNotifs ns j hs

/-- One activation of the hook. Both effects check `areListenersReady`
first. When it is false, the first effect runs the registration procedure
and stores its outcome in `expoPushToken`, and the second effect sets the
guard and attaches the listener, whose closure captures the current
`notifications` value of the new activation; when the guard is already
true, both effects return immediately. -/
def activateStep (env : Env) (s : ProcState α) : ProcState α :=
  let i := s.hooks.length
  let h0 : HookState α := { expoPushToken := "", notifications := [] }
  if s.areListenersReady then
    { s with hooks := s.hooks ++ [h0] }
  else
    let h1 : HookState α := { h0 with expoPushToken := tokenOf env }
    { areListenersReady := true,
      hooks := s.hooks ++ [h1],
      listeners := s.listeners ++ [{ owner := i, captured := h1.notifications }],
      events := s.events ++ (registerForPushNotificationsAsync env).1 }

/-- Delivery of one incoming notification record: every active listener
fires, each calling `setNotifications([notification, ...captured])` on the
state of the activation that owns it. -/
def deliverStep (n : α) (s : ProcState α) : ProcState α :=
  { s with
    hooks := s.listeners.foldl (fun hs l => setNotifs (n :: l.captured) l.owner hs) s.hooks }

/-- Teardown of activation `i`: the effect cleanup removes the listeners
that activation attached. `areListenersReady` is not reset. -/
def deactivateStep (i : Nat) (s : ProcState α) : ProcState α :=
  { s with listeners := s.listeners.filter (fun l => l.owner ≠ i) }

/-- One process event. -/
def step (e : PEvent α) (s : ProcState α) : ProcState α :=
  match e with
  | PEvent.activate env => activateStep env s
  | PEvent.deliver n => deliverStep n s
  | PEvent.deactivate i => deactivateStep i s

/-- Run a list of events from a given state. -/
def runFrom (s : ProcState α) (evs : List (PEvent α)) : ProcState α :=
  evs.foldl (fun s e => step e s) s

/-- Run a list of events from the initial process state. -/
def run (evs : List (PEvent α)) : ProcState α :=
  runFrom (initialProcState α) evs

/-!
Sample environments used to instantiate the theorems below.
-/

/-- An Android physical device, permission already granted, primary
project-id source present, provider succeeds. -/
def deviceEnv : Env :=
  { platformOS := "android", isDevice := true, existingStatus := "granted",
    requestStatus := "granted", expoProjectId := some "pid", easProjectId := none,
    tokenFetch := RegResult.token "ExponentPushToken[abc123]" }

/-- An iOS simulator: not a physical device. -/
def simulatorEnv : Env :=
  { platformOS := "ios", isDevice := false, existingStatus := "undetermined",
    requestStatus := "undetermined", expoProjectId := none, easProjectId := none,
    tokenFetch := RegResult.failure "unreachable" }

/-- A physical device with permission granted but neither configuration
source providing a project id. -/
def noProjectEnv : Env :=
  { platformOS := "ios", isDevice := true, existingStatus := "granted",
    requestStatus := "granted", expoProjectId := none, easProjectId := none,
    tokenFetch := RegResult.token "unreachable" }

/-!
Theorems about the registration procedure and the outbound send.
-/

/-- Claim C7: invoking `registerForPushNotificationsAsync` in a
non-physical-device context fails with the not-a-physical-device error and
performs no permission query/request and no network call — the trace holds
at most the Android channel setup and the alert of the failure path. -/
theorem register_non_device_fails_early (env : Env)
    (h : env.isDevice = false) :
    (registerForPushNotificationsAsync env).2 =
      RegResult.failure "Must use physical device for push notifications" ∧
    ∀ ev ∈ (registerForPushNotificationsAsync env).1,
      ev = REvent.setChannel ∨
      ev = REvent.alert "Must use physical device for push notifications" := by
  constructor
  · simp [registerForPushNotificationsAsync, handleRegistrationError, h]
  · intro ev hev
    by_cases hp : env.platformOS = "android" <;>
      simp [registerForPushNotificationsAsync, handleRegistrationError, h, hp] at hev <;>
      tauto

/-- Witness for C7 at the simulator environment. -/
theorem register_non_device_fails_early_witness :
    simulatorEnv.isDevice = false ∧
    ((registerForPushNotificationsAsync simulatorEnv).2 =
        RegResult.failure "Must use physical device for push notifications" ∧
      ∀ ev ∈ (registerForPushNotificationsAsync simulatorEnv).1,
        ev = REvent.setChannel ∨
        ev = REvent.alert "Must use physical device for push notifications") :=
  ⟨rfl, register_non_device_fails_early simulatorEnv rfl⟩

/-- Claim C8: on a physical device with permission granted but both
project-id configuration sources absent, the procedure fails with
"Project ID not found" and the token-fetch network call never appears in
the trace. -/
theorem register_missing_project_id_fails_before_fetch (env : Env)
    (hd : env.isDevice = true)
    (hp : finalPermissionStatus env = "granted")
    (he : env.expoProjectId = none) (ha : env.easProjectId = none) :
    (registerForPushNotificationsAsync env).2 =
      RegResult.failure "Project ID not found" ∧
    ∀ pid, REvent.getToken pid ∉ (registerForPushNotificationsAsync env).1 := by
  have hr : resolveProjectId env = none := by simp [resolveProjectId, he, ha]
  constructor
  · simp [registerForPushNotificationsAsync, handleRegistrationError, hd, hp, hr]
  · intro pid
    by_cases hand : env.platformOS = "android" <;>
      by_cases hst : env.existingStatus = "granted" <;>
      simp [registerForPushNotificationsAsync, handleRegistrationError, hd, hp, hr, hand, hst]

/-- Witness for C8 at the environment with no project-id source. -/
theorem register_missing_project_id_fails_before_fetch_witness :
    noProjectEnv.isDevice = true ∧
    finalPermissionStatus noProjectEnv = "granted" ∧
    noProjectEnv.expoProjectId = none ∧
    noProjectEnv.easProjectId = none ∧
    ((registerForPushNotificationsAsync noProjectEnv).2 =
        RegResult.failure "Project ID not found" ∧
      ∀ pid, REvent.getToken pid ∉ (registerForPushNotificationsAsync noProjectEnv).1) :=
  ⟨rfl, by decide, rfl, rfl,
    register_missing_project_id_fails_before_fetch noProjectEnv rfl (by decide) rfl rfl⟩

/-- Claim C9: on a physical device with permission already granted and a
resolvable (truthy) project id, a provider response of
"ExponentPushToken[abc123]" is returned exactly. -/
theorem register_granted_returns_provider_token (env : Env) (pid : String)
    (hd : env.isDevice = true)
    (hs : env.existingStatus = "granted")
    (hp : resolveProjectId env = some pid) (hpid : pid ≠ "")
    (ht : env.tokenFetch = RegResult.token "ExponentPushToken[abc123]") :
    (registerForPushNotificationsAsync env).2 =
      RegResult.token "ExponentPushToken[abc123]" := by
  simp [registerForPushNotificationsAsync, finalPermissionStatus, hd, hs, hp, hpid, ht]

/-- Witness for C9 at the fully-configured device environment. -/
theorem register_granted_returns_provider_token_witness :
    deviceEnv.isDevice = true ∧
    deviceEnv.existingStatus = "granted" ∧
    resolveProjectId deviceEnv = some "pid" ∧
    "pid" ≠ "" ∧
    deviceEnv.tokenFetch = RegResult.token "ExponentPushToken[abc123]" ∧
    (registerForPushNotificationsAsync deviceEnv).2 =
      RegResult.token "ExponentPushToken[abc123]" :=
  ⟨rfl, rfl, rfl, by decide, rfl,
    register_granted_returns_provider_token deviceEnv "pid" rfl rfl rfl (by decide) rfl⟩

/-- Claim C10: every call to `sendPushNotification` issues exactly one
POST to the provider's push-send endpoint with the envelope
`{to, sound := "default", title, body, data}` and the three content
negotiation headers, and when the fetch resolves with an HTTP response the
call completes without error regardless of the status. -/
theorem send_issues_one_post_and_completes (options : SendPushOptions) :
    (∀ fo : FetchOutcome,
      (sendPushNotification options fo).1 =
        [{ url := "https://exp.host/--/api/v2/push/send", method := "POST",
           headers := [("Accept", "application/json"),
                       ("Accept-encoding", "gzip, deflate"),
                       ("Content-Type", "application/json")],
           body := { «to» := options.«to», sound := "default",
                     title := options.title, body := options.body,
                     data := options.data } }]) ∧
    (∀ status : Nat,
      (sendPushNotification options (FetchOutcome.response status)).2 =
        SendResult.completed) :=
  ⟨fun _ => rfl, fun _ => rfl⟩

/-- Counterexample for claim C3 as stated: a network failure of the POST
is not swallowed — the promise returned by `sendPushNotification` rejects,
so the call does throw for that outcome of the POST. -/
theorem send_network_failure_rejects :
    (sendPushNotification
        { «to» := ["tok1"], title := "T", body := "B", data := none }
        (FetchOutcome.networkError "TypeError: Network request failed")).2 =
      SendResult.rejected "TypeError: Network request failed" ∧
    (sendPushNotification
        { «to» := ["tok1"], title := "T", body := "B", data := none }
        (FetchOutcome.networkError "TypeError: Network request failed")).2 ≠
      SendResult.completed :=
  ⟨rfl, by decide⟩

/-- Claim C3 amended: HTTP-level failures are silently swallowed — when
the POST yields a response, of any status, the call completes and performs
no response validation; but a network failure of the POST rejects the
returned promise, propagating the error to an awaiting caller. -/
theorem send_http_swallowed_network_propagates :
    (∀ (options : SendPushOptions) (status : Nat),
        (sendPushNotification options (FetchOutcome.response status)).2 =
          SendResult.completed) ∧
    (∀ (options : SendPushOptions) (m : String),
        (sendPushNotification options (FetchOutcome.networkError m)).2 =
          SendResult.rejected m) :=
  ⟨fun _ _ => rfl, fun _ _ => rfl⟩

/-!
Lemmas about the process model of the hook.
-/

/-- A hook state produced by `setNotifs` either carries the new list or
was in the input unchanged. -/
theorem mem_setNotifs {ns : List α} {h : HookState α} :
    ∀ {i : Nat} {hs : List (HookState α)}, h ∈ setNotifs ns i hs →
      h.notifications = ns ∨ h ∈ hs := by
  intro i hs
  induction hs generalizing i with
  | nil =>
    intro hm
    cases i <;> simp [setNotifs] at hm
  | cons x xs ih =>
    intro hm
    cases i with
    | zero =>
      simp only [setNotifs] at hm
      rcases List.mem_cons.mp hm with h1 | h1
      · exact Or.inl (by rw [h1])
      · exact Or.inr (List.mem_cons_of_mem _ h1)
    | succ j =>
      simp only [setNotifs] at hm
      rcases List.mem_cons.mp hm with h1 | h1
      · exact Or.inr (by rw [h1]; exact List.mem_cons_self _ _)
      · rcases ih h1 with h2 | h2
        · exact Or.inl h2
        · exact Or.inr (List.mem_cons_of_mem _ h2)

/-- `setNotifs` never changes a stored token. -/
theorem setNotifs_map_token (ns : List α) :
    ∀ (i : Nat) (hs : List (HookState α)),
      (setNotifs ns i hs).map HookState.expoPushToken =
        hs.map HookState.expoPushToken := by
  intro i hs
  induction hs generalizing i with
  | nil => cases i <;> rfl
  | cons x xs ih => cases i with
    | zero => simp [setNotifs]
    | succ j => simp [setNotifs, ih]

/-- Firing all listeners never changes any stored token. -/
theorem foldl_setNotifs_map_token (n : α) (L : List (Listener α)) :
    ∀ hs : List (HookState α),
      ((L.foldl (fun hs l => setNotifs (n :: l.captured) l.owner hs) hs).map
          HookState.expoPushToken) = hs.map HookState.expoPushToken := by
  induction L with
  | nil => intro hs; rfl
  | cons l L ih => intro hs; rw [List.foldl_cons, ih, setNotifs_map_token]

/-- Once `areListenersReady` is true, no event resets it. -/
theorem step_guard_mono (e : PEvent α) (s : ProcState α)
    (h : s.areListenersReady = true) : (step e s).areListenersReady = true := by
  cases e <;> simp [step, activateStep, deliverStep, deactivateStep, h]

/-- Once `areListenersReady` is true, no sequence of events resets it. -/
theorem runFrom_guard_mono (evs : List (PEvent α)) (s : ProcState α)
    (h : s.areListenersReady = true) : (runFrom s evs).areListenersReady = true := by
  induction evs generalizing s with
  | nil => exact h
  | cons e evs ih => exact ih _ (step_guard_mono e s h)

/-- One event preserves the token stored at any existing activation. -/
theorem step_preserves_token (e : PEvent α) (s : ProcState α) (i : Nat) (t : String)
    (h : (s.hooks.map HookState.expoPushToken)[i]? = some t) :
    ((step e s).hooks.map HookState.expoPushToken)[i]? = some t := by
  have hi : i < (s.hooks.map HookState.expoPushToken).length := by
    rcases List.getElem?_eq_some_iff.mp h with ⟨hlt, -⟩
    exact hlt
  cases e with
  | activate env =>
    by_cases hg : s.areListenersReady = true
    · have hs1 : step (PEvent.activate env) s =
          { s with hooks := s.hooks ++ [{ expoPushToken := "", notifications := [] }] } := by
        simp [step, activateStep, hg]
      rw [hs1]
      show ((s.hooks ++ [({ expoPushToken := "", notifications := [] } : HookState α)]).map
          HookState.expoPushToken)[i]? = some t
      rw [List.map_append, List.getElem?_append_left (by simpa using hi)]
      exact h
    · have hg' : s.areListenersReady = false := by
        cases hb : s.areListenersReady
        · rfl
        · exact absurd hb hg
      have hs1 : step (PEvent.activate env) s =
          { areListenersReady := true,
            hooks := s.hooks ++ [{ expoPushToken := tokenOf env, notifications := [] }],
            listeners := s.listeners ++ [{ owner := s.hooks.length, captured := [] }],
            events := s.events ++ (registerForPushNotificationsAsync env).1 } := by
        simp [step, activateStep, hg']
      rw [hs1]
      show ((s.hooks ++ [({ expoPushToken := tokenOf env, notifications := [] } :
          HookState α)]).map HookState.expoPushToken)[i]? = some t
      rw [List.map_append, List.getElem?_append_left (by simpa using hi)]
      exact h
  | deliver n =>
    simpa [step, deliverStep, foldl_setNotifs_map_token] using h
  | deactivate j =>
    exact h

/-- A whole run preserves the token stored at any existing activation. -/
theorem runFrom_preserves_token (evs : List (PEvent α)) (s : ProcState α)
    (i : Nat) (t : String)
    (h : (s.hooks.map HookState.expoPushToken)[i]? = some t) :
    ((runFrom s evs).hooks.map HookState.expoPushToken)[i]? = some t := by
  induction evs generalizing s with
  | nil => exact h
  | cons e evs ih => exact ih _ (step_preserves_token e s i t h)

/-- Claim C4: when the process-wide guard is already true, an activation
adds only a fresh inert hook state — the registration procedure is not
invoked (no new trace events), no listener is attached, the guard stays
true through any further events, and the new activation's token stays the
empty string forever. -/
theorem later_activation_skips_everything (α : Type) (env : Env) (s : ProcState α)
    (h : s.areListenersReady = true) :
    step (PEvent.activate env) s =
      { s with hooks := s.hooks ++ [{ expoPushToken := "", notifications := [] }] } ∧
    (∀ evs : List (PEvent α),
      (runFrom (step (PEvent.activate env) s) evs).areListenersReady = true) ∧
    (∀ evs : List (PEvent α),
      ((runFrom (step (PEvent.activate env) s) evs).hooks.map
          HookState.expoPushToken)[s.hooks.length]? = some "") := by
  have hstep : step (PEvent.activate env) s =
      { s with hooks := s.hooks ++ [{ expoPushToken := "", notifications := [] }] } := by
    simp [step, activateStep, h]
  refine ⟨hstep, fun evs => runFrom_guard_mono evs _ (by rw [hstep]; exact h), fun evs => ?_⟩
  apply runFrom_preserves_token
  rw [hstep]
  show ((s.hooks ++ [({ expoPushToken := "", notifications := [] } : HookState α)]).map
      HookState.expoPushToken)[s.hooks.length]? = some ""
  rw [List.map_append, show s.hooks.length = (s.hooks.map HookState.expoPushToken).length
    by simp]
  exact List.getElem?_concat_length _ _

/-- A process state whose guard is already set, used to instantiate the
guard-true theorems. -/
def guardedProc : ProcState Nat :=
  { areListenersReady := true, hooks := [], listeners := [], events := [] }

/-- Witness for C4 at a guard-true state. -/
theorem later_activation_skips_everything_witness :
    guardedProc.areListenersReady = true ∧
    (step (PEvent.activate deviceEnv) guardedProc =
        { guardedProc with
          hooks := guardedProc.hooks ++ [{ expoPushToken := "", notifications := [] }] } ∧
      (∀ evs : List (PEvent Nat),
        (runFrom (step (PEvent.activate deviceEnv) guardedProc) evs).areListenersReady = true) ∧
      (∀ evs : List (PEvent Nat),
        ((runFrom (step (PEvent.activate deviceEnv) guardedProc) evs).hooks.map
            HookState.expoPushToken)[guardedProc.hooks.length]? = some "")) :=
  ⟨rfl, later_activation_skips_everything Nat deviceEnv guardedProc rfl⟩

/-- Claim C5: two activations in one process attach exactly one listener,
and one incoming record then produces exactly one stored entry — in the
first activation's list; the second activation's list stays empty. -/
theorem two_activations_one_listener (α : Type) (env1 env2 : Env) (n : α) :
    (run ([PEvent.activate env1, PEvent.activate env2] : List (PEvent α))).listeners.length
        = 1 ∧
    (run [PEvent.activate env1, PEvent.activate env2, PEvent.deliver n]).hooks.map
        HookState.notifications = [[n], []] :=
  ⟨rfl, rfl⟩

/-- Claim C6: when the guard is not yet set and the registration procedure
throws, the activation catches the error and stores its template-string
form in `expoPushToken`; the hook itself completes normally, attaching its
listener and recording the registration trace. -/
theorem registration_failure_caught_as_token (α : Type) (env : Env) (s : ProcState α)
    (m : String)
    (hg : s.areListenersReady = false)
    (hr : (registerForPushNotificationsAsync env).2 = RegResult.failure m) :
    step (PEvent.activate env) s =
      { areListenersReady := true,
        hooks := s.hooks ++ [{ expoPushToken := errString m, notifications := [] }],
        listeners := s.listeners ++ [{ owner := s.hooks.length, captured := [] }],
        events := s.events ++ (registerForPushNotificationsAsync env).1 } := by
  simp [step, activateStep, hg, tokenOf, hr]

/-- Witness for C6: a first activation on a simulator stores the
stringified not-a-physical-device error as the token. -/
theorem registration_failure_caught_as_token_witness :
    (initialProcState Nat).areListenersReady = false ∧
    (registerForPushNotificationsAsync simulatorEnv).2 =
      RegResult.failure "Must use physical device for push notifications" ∧
    step (PEvent.activate simulatorEnv) (initialProcState Nat) =
      { areListenersReady := true,
        hooks := (initialProcState Nat).hooks ++
          [{ expoPushToken := errString "Must use physical device for push notifications",
             notifications := [] }],
        listeners := (initialProcState Nat).listeners ++
          [{ owner := (initialProcState Nat).hooks.length, captured := [] }],
        events := (initialProcState Nat).events ++
          (registerForPushNotificationsAsync simulatorEnv).1 } :=
  ⟨rfl, rfl,
    registration_failure_caught_as_token Nat simulatorEnv (initialProcState Nat)
      "Must use physical device for push notifications" rfl rfl⟩

/-- The process invariant behind the stale closure: every active listener
captured the empty list, and every stored notification list has at most
one entry. -/
def SmallInv (s : ProcState α) : Prop :=
  (∀ l ∈ s.listeners, l.captured = []) ∧
  (∀ h ∈ s.hooks, h.notifications.length ≤ 1)

/-- The initial process state satisfies the invariant. -/
theorem smallInv_init : SmallInv (initialProcState α) := by
  constructor <;> intro x hx <;> simp [initialProcState] at hx

/-- Firing listeners that all captured the empty list keeps every stored
list at length at most one. -/
theorem foldl_deliver_len (n : α) (L : List (Listener α)) :
    ∀ hs : List (HookState α),
      (∀ l ∈ L, l.captured = []) →
      (∀ h ∈ hs, h.notifications.length ≤ 1) →
      ∀ h ∈ L.foldl (fun hs l => setNotifs (n :: l.captured) l.owner hs) hs,
        h.notifications.length ≤ 1 := by
  induction L with
  | nil => intro hs _ hh h hm; exact hh h hm
  | cons l L ih =>
    intro hs hc hh h hm
    rw [List.foldl_cons] at hm
    refine ih _ (fun x hx => hc x (List.mem_cons_of_mem _ hx)) ?_ h hm
    intro x hx
    rcases mem_setNotifs hx with h1 | h2
    · rw [h1, hc l (List.mem_cons_self _ _)]
      simp
    · exact hh x h2

/-- Every event preserves the invariant. -/
theorem step_smallInv (e : PEvent α) (s : ProcState α) (hI : SmallInv s) :
    SmallInv (step e s) := by
  obtain ⟨hc, hh⟩ := hI
  cases e with
  | activate env =>
    by_cases hg : s.areListenersReady = true
    · have hs1 : step (PEvent.activate env) s =
          { s with hooks := s.hooks ++ [{ expoPushToken := "", notifications := [] }] } := by
        simp [step, activateStep, hg]
      rw [hs1]
      refine ⟨hc, ?_⟩
      intro h hm
      rcases List.mem_append.mp hm with hm | hm
      · exact hh h hm
      · rw [List.mem_singleton.mp hm]
        simp
    · have hg' : s.areListenersReady = false := by
        cases hb : s.areListenersReady
        · rfl
        · exact absurd hb hg
      have hs1 : step (PEvent.activate env) s =
          { areListenersReady := true,
            hooks := s.hooks ++ [{ expoPushToken := tokenOf env, notifications := [] }],
            listeners := s.listeners ++ [{ owner := s.hooks.length, captured := [] }],
            events := s.events ++ (registerForPushNotificationsAsync env).1 } := by
        simp [step, activateStep, hg']
      rw [hs1]
      constructor
      · intro l hl
        rcases List.mem_append.mp hl with hl | hl
        · exact hc l hl
        · rw [List.mem_singleton.mp hl]
      · intro h hm
        rcases List.mem_append.mp hm with hm | hm
        · exact hh h hm
        · rw [List.mem_singleton.mp hm]
          simp
  | deliver n =>
    exact ⟨hc, foldl_deliver_len n s.listeners s.hooks hc hh⟩
  | deactivate i =>
    exact ⟨fun l hl => hc l (List.mem_of_mem_filter hl), hh⟩

/-- Every run preserves the invariant. -/
theorem runFrom_smallInv (evs : List (PEvent α)) (s : ProcState α) (h : SmallInv s) :
    SmallInv (runFrom s evs) := by
  induction evs generalizing s with
  | nil => exact h
  | cons e evs ih => exact ih _ (step_smallInv e s h)

/-- `getLast?` of a cons, written through the tail's `getLast?`. -/
theorem getLast?_cons_form (a : α) (t : List α) :
    (a :: t).getLast? = some (match t.getLast? with | none => a | some n => n) := by
  induction t generalizing a with
  | nil => rfl
  | cons b t ih =>
    rw [List.getLast?_cons_cons, ih b]

/-- Running only deliveries over a state holding the single listener that
captured the empty list: the stored list ends as exactly the most recent
record (or stays as it was when no record arrives). -/
theorem runFrom_deliver_single (g : Bool) (ev : List REvent) (tk : String) :
    ∀ (ns : List α) (cur : List α),
      runFrom
        { areListenersReady := g,
          hooks := [{ expoPushToken := tk, notifications := cur }],
          listeners := [{ owner := 0, captured := [] }], events := ev }
        (ns.map PEvent.deliver) =
      { areListenersReady := g,
        hooks := [{ expoPushToken := tk,
                    notifications := match ns.getLast? with
                      | none => cur
                      | some n => [n] }],
        listeners := [{ owner := 0, captured := [] }], events := ev } := by
  intro ns
  induction ns with
  | nil => intro cur; rfl
  | cons a t ih =>
    intro cur
    have h1 : runFrom
        { areListenersReady := g,
          hooks := [{ expoPushToken := tk, notifications := cur }],
          listeners := [{ owner := 0, captured := [] }], events := ev }
        ((a :: t).map PEvent.deliver) =
      runFrom
        { areListenersReady := g,
          hooks := [{ expoPushToken := tk, notifications := [a] }],
          listeners := [{ owner := 0, captured := [] }], events := ev }
        (t.map PEvent.deliver) := rfl
    rw [h1, ih [a], getLast?_cons_form]
    rcases ht : t.getLast? with _ | n <;> simp [ht]

/-- Claim C2: the received-notification handler closes over the list value
captured at attachment (the empty list), so over any event sequence every
stored list has at most one record, and after an activation followed by a
nonempty sequence of deliveries the stored list is exactly the single most
recently received record. -/
theorem stored_list_single_newest :
    (∀ (α : Type) (evs : List (PEvent α)),
        ∀ h ∈ (run evs).hooks, h.notifications.length ≤ 1) ∧
    (∀ (α : Type) (env : Env) (ns : List α) (n : α), ns.getLast? = some n →
        ∀ h ∈ (run (PEvent.activate env :: ns.map PEvent.deliver)).hooks,
          h.notifications = [n]) := by
  constructor
  · intro α evs h hm
    exact (runFrom_smallInv evs _ smallInv_init).2 h hm
  · intro α env ns n hn h hm
    have hrun : run (PEvent.activate env :: ns.map PEvent.deliver)
        = runFrom
            { areListenersReady := true,
              hooks := [{ expoPushToken := tokenOf env, notifications := [] }],
              listeners := [{ owner := 0, captured := [] }],
              events := (registerForPushNotificationsAsync env).1 }
            (ns.map PEvent.deliver) := rfl
    rw [hrun, runFrom_deliver_single, hn] at hm
    simp at hm
    rw [hm]

/-- Witness for C2: after one activation and deliveries 3, 7, 9 the stored
list is exactly the last record, and its length is at most one. -/
theorem stored_list_single_newest_witness :
    ({ expoPushToken := "ExponentPushToken[abc123]",
       notifications := [9] } : HookState Nat).notifications.length ≤ 1 ∧
    ({ expoPushToken := "ExponentPushToken[abc123]",
       notifications := [9] } : HookState Nat).notifications = [9] :=
  ⟨stored_list_single_newest.1 Nat
      [PEvent.activate deviceEnv, PEvent.deliver 9] _ (by decide),
    stored_list_single_newest.2 Nat deviceEnv [3, 7, 9] 9 rfl _ (by decide)⟩

/-- Claim C1, failing run: the handler closes over the initial empty list,
so after records "A", "B", "C" arrive in order the stored list is only
`["C"]`, not the accumulated `["C", "B", "A"]` the spec describes. -/
theorem received_handler_keeps_only_newest :
    (run [PEvent.activate deviceEnv, PEvent.deliver "A", PEvent.deliver "B",
          PEvent.deliver "C"]).hooks.map HookState.notifications = [["C"]] ∧
    ([["C"]] : List (List String)) ≠ [["C", "B", "A"]] :=
  ⟨rfl, by decide⟩

end PushApp
